import Mathlib

/-!
Shallow embedding of the hyperjiang/xxljob Go executor (executor.go, job.go,
response.go, params.go), restricted to the trigger/execution orchestration
subsystem: the job table, the block-strategy decision in `Executor.TriggerJob`,
job construction (`Executor.newJob`), forced termination (`Executor.stopJob`),
the completion watcher (`Executor.watch`), the serial-execution wait loop
(`Executor.runJob`) and the `kill` HTTP endpoint, plus the `Response` JSON
round trip.

Modelling conventions:
- Go `int` / `int64` become `Int` (no overflow-relevant arithmetic occurs in
  the modelled code paths).
- The handler registry `sync.Map` (name → JobHandler) becomes an association
  list `List (String × Nat)`; handler function bodies are opaque, so a handler
  value is represented by an abstract token `Nat`.
- The job table `sync.Map` (job id → *Job) becomes a `List Job`, looked up by
  `List.find?` on the id; `Store` replaces any binding of the same key and
  `Delete` removes it, as in `sync.Map`.
- A Go context's cancellation (`job.Stop()` calling `cancel()`) is recorded by
  pushing the job's logId onto a `cancelled` list in the state.
- `go e.runJob(newJob)` / `go e.watch(job)` hand the new Job to asynchronous
  tasks; synchronously the trigger call only records the Job on a `scheduled`
  list, mirroring that the Job is not yet in the job table when `TriggerJob`
  returns.
- The callback channel `chan CallbackParam` becomes a FIFO `List CallbackParam`
  to which the watcher appends.
-/

/-- Block strategy constant `SerialExecution = "SERIAL_EXECUTION"` (job.go). -/
def SerialExecution : String := "SERIAL_EXECUTION"

/-- Block strategy constant `DiscardLater = "DISCARD_LATER"` (job.go). -/
def DiscardLater : String := "DISCARD_LATER"

/-- Block strategy constant `CoverEarly = "COVER_EARLY"` (job.go). -/
def CoverEarly : String := "COVER_EARLY"

/-- `successCode = 200` (executor.go). -/
def successCode : Int := 200

/-- `failureCode = 500` (executor.go). -/
def failureCode : Int := 500

/-- `JobParam` (job.go): the parameter passed to the job handler. -/
structure JobParam where
  params : String
  shardingIndex : Int
  shardingTotal : Int
deriving DecidableEq, Repr

/-- `Job` (job.go): one execution instance. The Go struct's `Handle JobHandler`
field is an opaque function value, represented by an abstract token. The
runtime-only fields (`ctx`, `cancel`, `done`, start/end times, log dir) live in
the execution model, not in the data record. -/
structure Job where
  id : Int
  logId : Int
  name : String
  handle : Nat
  param : JobParam
  timeout : Int
deriving DecidableEq, Repr

/-- `RunParam` (params.go): wire input of the `run` (trigger) endpoint.
The glue fields are accepted on the wire but never used by the executor. -/
structure RunParam where
  jobId : Int
  executorHandler : String
  executorParams : String
  executorBlockStrategy : String
  executorTimeout : Int
  logId : Int
  logDateTime : Int
  glueType : String
  glueSource : String
  glueUpdatetime : Int
  broadcastIndex : Int
  broadcastTotal : Int
deriving DecidableEq, Repr

/-- `CallbackParam` (params.go): job execution result reported to the admin. -/
structure CallbackParam where
  logId : Int
  logDateTime : Int
  handleCode : Int
  handleMsg : String
deriving DecidableEq, Repr

/-- `KillParam` (params.go): body of the `kill` endpoint. -/
structure KillParam where
  jobId : Int
deriving DecidableEq, Repr

/-- The mutable state of an `Executor` touched by the modelled operations:
the job table (`e.jobs`), the handler registry (`e.handlers`), the callback
queue (`e.callbackChan`), plus two observation lists: `cancelled` records the
logIds of Jobs whose execution context has been cancelled (`job.Stop()`), and
`scheduled` records Jobs handed to `go e.runJob` but not yet inserted into the
job table. -/
structure ExecState where
  jobs : List Job
  handlers : List (String × Nat)
  callbackChan : List CallbackParam
  cancelled : List Int
  scheduled : List Job
deriving DecidableEq, Repr

/-- `Executor.getJob` (executor.go): look the current running job up by id in
`e.jobs`; a miss returns nil (`none`). -/
def getJob (st : ExecState) (id : Int) : Option Job :=
  st.jobs.find? (fun j => j.id == id)

/-- `Executor.addJob` (executor.go): `e.jobs.Store(job.ID, job)` — store the
job under its id, replacing any binding of that id. -/
def addJob (st : ExecState) (job : Job) : ExecState :=
  { st with jobs := job :: st.jobs.filter (fun x => !(x.id == job.id)) }

/-- `Executor.stopJob` (executor.go): `job.Stop()` cancels the job's execution
context, then `e.jobs.Delete(job.ID)` removes its table entry. -/
def stopJob (st : ExecState) (job : Job) : ExecState :=
  { st with
      cancelled := job.logId :: st.cancelled,
      jobs := st.jobs.filter (fun x => !(x.id == job.id)) }

/-- `Executor.GetJobHandler` (executor.go): look a handler up by name in
`e.handlers`; a miss returns nil (`none`). -/
def GetJobHandler (st : ExecState) (name : String) : Option Nat :=
  (st.handlers.find? (fun h => h.1 == name)).map (fun h => h.2)

/-- `Executor.newJob` (executor.go): resolve the handler by name — absent means
the error "job handler not found" — otherwise build the Job record from the
RunParam exactly as the Go code does. (The Go function also spawns
`go e.watch(job)`; the watcher itself is the separate function `watch`.) -/
def newJob (st : ExecState) (p : RunParam) : Except String Job :=
  match GetJobHandler st p.executorHandler with
  | none => Except.error "job handler not found"
  | some h =>
      Except.ok
        { id := p.jobId
          logId := p.logId
          name := p.executorHandler
          handle := h
          param :=
            { params := p.executorParams
              shardingIndex := p.broadcastIndex
              shardingTotal := p.broadcastTotal }
          timeout := p.executorTimeout }

/-- The tail of `Executor.TriggerJob` after the block-strategy switch:
`newJob` followed by `go e.runJob(newJob)` on success. The spawned Job is
recorded on `scheduled`; it is not yet in the job table. -/
def scheduleJob (st : ExecState) (p : RunParam) : ExecState × Except String Job :=
  match newJob st p with
  | Except.error e => (st, Except.error e)
  | Except.ok nj => ({ st with scheduled := nj :: st.scheduled }, Except.ok nj)

/-- `Executor.TriggerJob` (executor.go): duplicate-logId check first, then the
switch on `ExecutorBlockStrategy` (`DiscardLater` rejects when an incumbent is
running; `CoverEarly` stops the incumbent and falls through; `SerialExecution`
and every other value fall through to the default), then `newJob` and
`go e.runJob`. -/
def TriggerJob (st : ExecState) (p : RunParam) : ExecState × Except String Job :=
  match getJob st p.jobId with
  | some job =>
      if job.logId = p.logId then
        (st, Except.error "duplicate log id")
      else if p.executorBlockStrategy = DiscardLater then
        (st, Except.error "a job of same id is already running")
      else if p.executorBlockStrategy = CoverEarly then
        scheduleJob (stopJob st job) p
      else
        scheduleJob st p
  | none => scheduleJob st p

/-- `Executor.watch` (executor.go): wait for the job's completion result (the
value received from `job.done`, modelled as `none` for a nil error and
`some e` for an error with text `e`), remove the job's table entry by id,
build the CallbackParam (success → 200/"OK", failure → 500/error text,
`LogDateTime` from the current clock, passed in as `nowMs`), and append it to
the callback queue. -/
def watch (st : ExecState) (job : Job) (result : Option String) (nowMs : Int) :
    ExecState × CallbackParam :=
  let cb : CallbackParam :=
    match result with
    | some e =>
        { logId := job.logId, logDateTime := nowMs
          handleCode := failureCode, handleMsg := e }
    | none =>
        { logId := job.logId, logDateTime := nowMs
          handleCode := successCode, handleMsg := "OK" }
  ({ st with
      jobs := st.jobs.filter (fun x => !(x.id == job.id)),
      callbackChan := st.callbackChan ++ [cb] }, cb)

/-- One observable event of the `Executor.runJob` task (executor.go): a poll of
the job table for the job's id (`e.getJob(job.ID)` with the value it returned),
the insertion of the new job into the table (`e.addJob(job)`), or the start of
the handler (`job.Run()`). -/
inductive RunJobEvent where
  | poll : Option Job → RunJobEvent
  | insert : RunJobEvent
  | run : RunJobEvent
deriving DecidableEq, Repr

/-- `Executor.runJob` (executor.go) as an event trace. The loop body polls
`e.getJob(job.ID)` once per iteration and breaks as soon as the lookup misses;
only then does the task run `e.addJob(job)` followed by `job.Run()`. The
argument `obs` is the sequence of table-lookup results the loop observes, one
per iteration (the surrounding concurrency decides these values); a trace whose
observations never miss is still inside the wait loop and contains neither the
insert nor the run event. -/
def runJobTrace : List (Option Job) → List RunJobEvent
  | [] => []
  | none :: _ => [RunJobEvent.poll none, RunJobEvent.insert, RunJobEvent.run]
  | some j :: rest => RunJobEvent.poll (some j) :: runJobTrace rest

/-- A JSON value, the common codomain of Go's `encoding/json` marshalling for
the data reachable from a `Response`: numbers in the modelled responses are
integers (`Code` is an `int`), so numbers are modelled as `Int`. -/
inductive Json where
  | null : Json
  | bool : Bool → Json
  | num : Int → Json
  | str : String → Json
  | arr : List Json → Json
  | obj : List (String × Json) → Json
deriving Repr

/-- `Response` (response.go). The `Content interface{}` field holds an
arbitrary JSON-marshalable value, represented by its JSON image; `none` is the
nil interface, which the `content,omitempty` tag omits from the output. -/
structure Response where
  code : Int
  msg : String
  content : Option Json
deriving Repr

/-- `NewSuccResponse` (response.go). -/
def NewSuccResponse : Response :=
  { code := successCode, msg := "", content := none }

/-- `NewErrorResponse` (response.go). -/
def NewErrorResponse (msg : String) : Response :=
  { code := failureCode, msg := msg, content := none }

/-- `Executor.kill` (executor.go), after the body has been decoded into a
`KillParam`: if a job with that id is in the table, stop it (`e.stopJob`);
either way write `NewSuccResponse`. -/
def kill (st : ExecState) (p : KillParam) : ExecState × Response :=
  match getJob st p.jobId with
  | some job => (stopJob st job, NewSuccResponse)
  | none => (st, NewSuccResponse)

/-- `Response.String` (response.go) at the JSON-value level: `json.Marshal` of
a `Response` emits the fields in struct order under their tags — `code` and
`msg` always, `content` only when the interface is non-nil (`omitempty`). A
non-nil content marshals to its JSON image, which for a typed nil (for
example `json.RawMessage("null")`) is the bare JSON null. -/
def Response.toJson (r : Response) : Json :=
  Json.obj
    ([("code", Json.num r.code), ("msg", Json.str r.msg)] ++
      (match r.content with
      | none => []
      | some c => [("content", c)]))

/-- One step of `json.Unmarshal` decoding an object field into a `Response`:
`code` accepts a number (JSON null leaves the field untouched), `msg` accepts
a string (null leaves it untouched), `content` stores the JSON value into the
interface field (null stores the nil interface); unknown keys are ignored; a
type mismatch is a decode error. -/
def applyField (r : Response) (k : String) (v : Json) : Option Response :=
  if k = "code" then
    match v with
    | Json.num n => some { r with code := n }
    | Json.null => some r
    | _ => none
  else if k = "msg" then
    match v with
    | Json.str s => some { r with msg := s }
    | Json.null => some r
    | _ => none
  else if k = "content" then
    match v with
    | Json.null => some { r with content := none }
    | v => some { r with content := some v }
  else
    some r

/-- Decode the fields of a JSON object into `r` left to right, as
`json.Unmarshal` scans the input; a later duplicate key overwrites an
earlier one. -/
def readFields (r : Response) : List (String × Json) → Option Response
  | [] => some r
  | (k, v) :: rest =>
      match applyField r k v with
      | none => none
      | some r1 => readFields r1 rest

/-- `json.Unmarshal` of a JSON value into a fresh `Response` (the zero value
has code 0, empty msg, nil content): only an object decodes; each field is
decoded by `applyField`. -/
def Response.fromJson (j : Json) : Option Response :=
  match j with
  | Json.obj fs => readFields { code := 0, msg := "", content := none } fs
  | _ => none

/-! ## Concrete fixtures, used to instantiate the theorems below -/

/-- A RunParam for job 1 and handler "echo", with the given block strategy and
logId; the remaining wire fields are fixed inert values. -/
def mkRunParam (strategy : String) (logId : Int) : RunParam :=
  { jobId := 1, executorHandler := "echo", executorParams := "hi",
    executorBlockStrategy := strategy, executorTimeout := 0, logId := logId,
    logDateTime := 0, glueType := "BEAN", glueSource := "", glueUpdatetime := 0,
    broadcastIndex := 0, broadcastTotal := 1 }

/-- A running job with id 1 and logId 7. -/
def sampleJob : Job :=
  { id := 1, logId := 7, name := "echo", handle := 0,
    param := { params := "hi", shardingIndex := 0, shardingTotal := 1 },
    timeout := 0 }

/-- A successor job for the same id 1, from a later trigger (logId 8). -/
def successorJob : Job :=
  { id := 1, logId := 8, name := "echo", handle := 0,
    param := { params := "hi", shardingIndex := 0, shardingTotal := 1 },
    timeout := 0 }

/-- An executor state whose table holds `sampleJob` and whose registry knows
the handler "echo". -/
def sampleState : ExecState :=
  { jobs := [sampleJob], handlers := [("echo", 0)], callbackChan := [],
    cancelled := [], scheduled := [] }

/-- An executor state with an empty job table and the handler "echo"
registered. -/
def emptyState : ExecState :=
  { jobs := [], handlers := [("echo", 0)], callbackChan := [],
    cancelled := [], scheduled := [] }

/-- An executor state whose table holds `sampleJob` but whose handler registry
is empty. -/
def noHandlerState : ExecState :=
  { jobs := [sampleJob], handlers := [], callbackChan := [],
    cancelled := [], scheduled := [] }

/-! ## Helper lemmas about the job table -/

/-- A successful `getJob` lookup returns a job whose id is the looked-up id. -/
theorem getJob_id_eq {st : ExecState} {i : Int} {j : Job}
    (h : getJob st i = some j) : j.id = i := by
  have hp := List.find?_some h
  simpa using hp

/-- Deleting id `i` from a job list makes the lookup for `i` miss. -/
theorem find?_filter_self_none (l : List Job) (i : Int) :
    (l.filter (fun x => !(x.id == i))).find? (fun x => x.id == i) = none := by
  rw [List.find?_eq_none]
  intro x hx
  have hmem := List.mem_filter.mp hx
  simpa using hmem.2

/-- `stopJob` leaves the handler registry untouched. -/
theorem GetJobHandler_stopJob (st : ExecState) (j : Job) (n : String) :
    GetJobHandler (stopJob st j) n = GetJobHandler st n := rfl

/-- When the handler name is unregistered, the tail of the trigger path fails
with "job handler not found" and leaves the state alone. -/
theorem scheduleJob_handler_none {st : ExecState} {p : RunParam}
    (h : GetJobHandler st p.executorHandler = none) :
    scheduleJob st p = (st, Except.error "job handler not found") := by
  unfold scheduleJob newJob
  rw [h]

/-- When the handler name resolves, the tail of the trigger path builds the Job
from the RunParam, pushes it on the schedule, and returns it. -/
theorem scheduleJob_handler_some {st : ExecState} {p : RunParam} {h : Nat}
    (hs : GetJobHandler st p.executorHandler = some h) :
    scheduleJob st p =
      ({ st with scheduled :=
          { id := p.jobId, logId := p.logId, name := p.executorHandler, handle := h,
            param := { params := p.executorParams, shardingIndex := p.broadcastIndex,
                       shardingTotal := p.broadcastTotal },
            timeout := p.executorTimeout } :: st.scheduled },
        Except.ok
          { id := p.jobId, logId := p.logId, name := p.executorHandler, handle := h,
            param := { params := p.executorParams, shardingIndex := p.broadcastIndex,
                       shardingTotal := p.broadcastTotal },
            timeout := p.executorTimeout }) := by
  unfold scheduleJob newJob
  rw [hs]

/-! ## Claims -/

/-- C2: if the incumbent for the incoming jobId carries the same logId as the
trigger, `TriggerJob` fails with "duplicate log id" and the state — job table,
cancellations, schedule, callback queue — is exactly unchanged, whatever the
block strategy says. -/
theorem trigger_duplicate_logId (st : ExecState) (p : RunParam) (job : Job)
    (hjob : getJob st p.jobId = some job) (hlog : job.logId = p.logId) :
    TriggerJob st p = (st, Except.error "duplicate log id") := by
  unfold TriggerJob
  rw [hjob]
  simp [hlog]

/-- C3: under `DISCARD_LATER`, an incumbent with a different logId makes
`TriggerJob` fail with "a job of same id is already running" and the state is
exactly unchanged: no new Job is scheduled and the incumbent keeps its table
entry with its cancellation untouched. -/
theorem trigger_discard_later (st : ExecState) (p : RunParam) (job : Job)
    (hjob : getJob st p.jobId = some job) (hlog : job.logId ≠ p.logId)
    (hstrat : p.executorBlockStrategy = DiscardLater) :
    TriggerJob st p = (st, Except.error "a job of same id is already running") := by
  unfold TriggerJob
  rw [hjob]
  simp [hlog, hstrat]

/-- C4: under `COVER_EARLY`, with an incumbent of a different logId and a
registered handler, `TriggerJob` cancels the incumbent's execution context,
deletes its table entry, constructs the new Job from the RunParam, schedules
it, and returns it as the success value. -/
theorem trigger_cover_early (st : ExecState) (p : RunParam) (job : Job) (h : Nat)
    (hjob : getJob st p.jobId = some job) (hlog : job.logId ≠ p.logId)
    (hstrat : p.executorBlockStrategy = CoverEarly)
    (hh : GetJobHandler st p.executorHandler = some h) :
    ∃ nj,
      (TriggerJob st p).2 = Except.ok nj ∧
      (TriggerJob st p).1.cancelled = job.logId :: st.cancelled ∧
      getJob (TriggerJob st p).1 p.jobId = none ∧
      (TriggerJob st p).1.scheduled = nj :: st.scheduled ∧
      nj.id = p.jobId ∧ nj.logId = p.logId ∧
      nj.name = p.executorHandler ∧ nj.handle = h := by
  have hid : job.id = p.jobId := getJob_id_eq hjob
  have h2 : ¬ p.executorBlockStrategy = DiscardLater := by
    rw [hstrat]; decide
  have hT : TriggerJob st p =
      ({ stopJob st job with scheduled :=
          { id := p.jobId, logId := p.logId, name := p.executorHandler, handle := h,
            param := { params := p.executorParams, shardingIndex := p.broadcastIndex,
                       shardingTotal := p.broadcastTotal },
            timeout := p.executorTimeout } :: st.scheduled },
        Except.ok
          { id := p.jobId, logId := p.logId, name := p.executorHandler, handle := h,
            param := { params := p.executorParams, shardingIndex := p.broadcastIndex,
                       shardingTotal := p.broadcastTotal },
            timeout := p.executorTimeout }) := by
    simp only [TriggerJob, hjob, if_neg hlog, if_neg h2, if_pos hstrat,
      scheduleJob, newJob, GetJobHandler_stopJob, hh]
    rfl
  rw [hT]
  refine ⟨_, rfl, rfl, ?_, rfl, rfl, rfl, rfl, rfl⟩
  show (st.jobs.filter (fun x => !(x.id == job.id))).find?
    (fun x => x.id == p.jobId) = none
  rw [hid]
  exact find?_filter_self_none st.jobs p.jobId

/-- C10: under `COVER_EARLY`, with an incumbent of a different logId but an
unregistered handler name, `TriggerJob` fails with "job handler not found" —
yet the incumbent has already been stopped: its execution context is cancelled
and its table entry is gone, while no replacement Job is scheduled. The failed
trigger is not atomic. -/
theorem trigger_cover_early_not_atomic (st : ExecState) (p : RunParam) (job : Job)
    (hjob : getJob st p.jobId = some job) (hlog : job.logId ≠ p.logId)
    (hstrat : p.executorBlockStrategy = CoverEarly)
    (hh : GetJobHandler st p.executorHandler = none) :
    TriggerJob st p = (stopJob st job, Except.error "job handler not found") ∧
    (TriggerJob st p).1.cancelled = job.logId :: st.cancelled ∧
    getJob (TriggerJob st p).1 p.jobId = none ∧
    (TriggerJob st p).1.scheduled = st.scheduled := by
  have hid : job.id = p.jobId := getJob_id_eq hjob
  have h2 : ¬ p.executorBlockStrategy = DiscardLater := by
    rw [hstrat]; decide
  have hT : TriggerJob st p = (stopJob st job, Except.error "job handler not found") := by
    simp only [TriggerJob, hjob, if_neg hlog, if_neg h2, if_pos hstrat,
      scheduleJob, newJob, GetJobHandler_stopJob, hh]
  refine ⟨hT, ?_, ?_, ?_⟩
  · rw [hT]; rfl
  · rw [hT]
    show (st.jobs.filter (fun x => !(x.id == job.id))).find?
      (fun x => x.id == p.jobId) = none
    rw [hid]
    exact find?_filter_self_none st.jobs p.jobId
  · rw [hT]; rfl

/-- C5: whenever a trigger passes the duplicate-logId check and the
block-strategy admission (no incumbent under `DISCARD_LATER`), the outcome is
decided by the handler lookup alone: an unregistered name returns the
"job handler not found" error synchronously with nothing scheduled, the
callback queue untouched, and no job added to the table; a registered name
returns success immediately with the new Job built from the RunParam placed on
the asynchronous schedule — not yet in the job table — and the callback queue
untouched (nothing has run yet). -/
theorem trigger_admitted (st : ExecState) (p : RunParam)
    (hdup : ∀ j, getJob st p.jobId = some j → j.logId ≠ p.logId)
    (hdiscard : p.executorBlockStrategy = DiscardLater → getJob st p.jobId = none) :
    (GetJobHandler st p.executorHandler = none →
      (TriggerJob st p).2 = Except.error "job handler not found" ∧
      (TriggerJob st p).1.scheduled = st.scheduled ∧
      (TriggerJob st p).1.callbackChan = st.callbackChan ∧
      ∀ j ∈ (TriggerJob st p).1.jobs, j ∈ st.jobs) ∧
    (∀ h, GetJobHandler st p.executorHandler = some h →
      ∃ nj, (TriggerJob st p).2 = Except.ok nj ∧
        nj.id = p.jobId ∧ nj.logId = p.logId ∧
        nj.name = p.executorHandler ∧ nj.handle = h ∧
        (TriggerJob st p).1.scheduled = nj :: st.scheduled ∧
        (TriggerJob st p).1.callbackChan = st.callbackChan ∧
        ∀ j ∈ (TriggerJob st p).1.jobs, j ∈ st.jobs) := by
  obtain ⟨st1, hT, hhand, hsched, hcb, hjobs⟩ :
      ∃ st1, TriggerJob st p = scheduleJob st1 p ∧ st1.handlers = st.handlers ∧
        st1.scheduled = st.scheduled ∧ st1.callbackChan = st.callbackChan ∧
        ∀ j ∈ st1.jobs, j ∈ st.jobs := by
    cases hj : getJob st p.jobId with
    | none =>
        refine ⟨st, ?_, rfl, rfl, rfl, fun j hjm => hjm⟩
        simp only [TriggerJob, hj]
    | some job =>
        have hlog := hdup job hj
        have h2 : ¬ p.executorBlockStrategy = DiscardLater := by
          intro hD
          rw [hdiscard hD] at hj
          exact Option.noConfusion hj
        by_cases h3 : p.executorBlockStrategy = CoverEarly
        · refine ⟨stopJob st job, ?_, rfl, rfl, rfl, ?_⟩
          · simp only [TriggerJob, hj, if_neg hlog, if_neg h2, if_pos h3]
          · intro j hjm
            exact (List.mem_filter.mp hjm).1
        · refine ⟨st, ?_, rfl, rfl, rfl, fun j hjm => hjm⟩
          simp only [TriggerJob, hj, if_neg hlog, if_neg h2, if_neg h3]
  have hGH : GetJobHandler st1 p.executorHandler = GetJobHandler st p.executorHandler := by
    unfold GetJobHandler
    rw [hhand]
  constructor
  · intro hnone
    rw [hT, scheduleJob_handler_none (hGH.trans hnone)]
    exact ⟨rfl, hsched, hcb, hjobs⟩
  · intro h hsome
    rw [hT, scheduleJob_handler_some (hGH.trans hsome), ← hsched, ← hcb]
    exact ⟨_, rfl, rfl, rfl, rfl, rfl, rfl, rfl, hjobs⟩

/-- C6: the completion watcher of a Job, fed the handler's outcome, produces
exactly one CallbackParam (the queue grows by exactly that one element), its
logId is the Job's logId, its handleCode is 200 with message "OK" on success
and 500 with the error text on failure — so always in {200, 500} — and the
watcher removes the table entry for the Job's id while leaving every
other-id entry in the table. -/
theorem watch_exactly_one_callback (st : ExecState) (job : Job)
    (result : Option String) (nowMs : Int) :
    (watch st job result nowMs).2.logId = job.logId ∧
    ((watch st job result nowMs).2.handleCode = 200 ∨
      (watch st job result nowMs).2.handleCode = 500) ∧
    (result = none →
      (watch st job result nowMs).2.handleCode = 200 ∧
      (watch st job result nowMs).2.handleMsg = "OK") ∧
    (∀ e, result = some e →
      (watch st job result nowMs).2.handleCode = 500 ∧
      (watch st job result nowMs).2.handleMsg = e) ∧
    getJob (watch st job result nowMs).1 job.id = none ∧
    (∀ x ∈ st.jobs, x.id ≠ job.id → x ∈ (watch st job result nowMs).1.jobs) ∧
    (watch st job result nowMs).1.callbackChan =
      st.callbackChan ++ [(watch st job result nowMs).2] := by
  cases result with
  | none =>
      refine ⟨rfl, Or.inl rfl, fun _ => ⟨rfl, rfl⟩, ?_, ?_, ?_, rfl⟩
      · intro e he
        exact Option.noConfusion he
      · show (st.jobs.filter (fun x => !(x.id == job.id))).find?
          (fun x => x.id == job.id) = none
        exact find?_filter_self_none st.jobs job.id
      · intro x hx hne
        exact List.mem_filter.mpr ⟨hx, by simp [hne]⟩
  | some e =>
      refine ⟨rfl, Or.inr rfl, ?_, ?_, ?_, ?_, rfl⟩
      · intro h
        exact Option.noConfusion h
      · intro e' he'
        have he2 : e = e' := Option.some.inj he'
        subst he2
        exact ⟨rfl, rfl⟩
      · show (st.jobs.filter (fun x => !(x.id == job.id))).find?
          (fun x => x.id == job.id) = none
        exact find?_filter_self_none st.jobs job.id
      · intro x hx hne
        exact List.mem_filter.mpr ⟨hx, by simp [hne]⟩

/-- C7: the kill endpoint, on a decoded body, always answers the success
Response (application code 200): when no job with the given id is in the table
the state is exactly unchanged (idempotent no-op), and when one is, its
execution context is cancelled and its table entry removed while every
other-id entry survives. -/
theorem kill_always_succeeds (st : ExecState) (p : KillParam) :
    (kill st p).2 = NewSuccResponse ∧
    (kill st p).2.code = 200 ∧
    (getJob st p.jobId = none → (kill st p).1 = st) ∧
    (∀ job, getJob st p.jobId = some job →
      (kill st p).1.cancelled = job.logId :: st.cancelled ∧
      getJob (kill st p).1 p.jobId = none ∧
      (∀ x ∈ st.jobs, x.id ≠ job.id → x ∈ (kill st p).1.jobs)) := by
  cases hj : getJob st p.jobId with
  | none =>
      have hk : kill st p = (st, NewSuccResponse) := by
        simp only [kill, hj]
      rw [hk]
      exact ⟨rfl, rfl, fun _ => rfl, fun job hjs => Option.noConfusion hjs⟩
  | some job =>
      have hk : kill st p = (stopJob st job, NewSuccResponse) := by
        simp only [kill, hj]
      have hid : job.id = p.jobId := getJob_id_eq hj
      rw [hk]
      refine ⟨rfl, rfl, fun hn => Option.noConfusion hn, ?_⟩
      intro jb hjs
      have hjj : job = jb := Option.some.inj hjs
      refine ⟨by rw [← hjj]; rfl, ?_, ?_⟩
      · show (st.jobs.filter (fun x => !(x.id == job.id))).find?
          (fun x => x.id == p.jobId) = none
        rw [hid]
        exact find?_filter_self_none st.jobs p.jobId
      · intro x hx hne
        have hne2 : x.id ≠ job.id := by rw [hjj]; exact hne
        exact List.mem_filter.mpr ⟨hx, by simp [hne2]⟩

/-- C8: if a Job is force-terminated (`stopJob`, as `COVER_EARLY` and `kill`
do) and a successor Job with the same id is inserted before the terminated
handler returns, then when the stale watcher fires it deletes the table entry
by id alone and thereby evicts the still-running successor from the table. -/
theorem stale_watcher_evicts_successor (st : ExecState) (oldJob successor : Job)
    (result : Option String) (nowMs : Int)
    (hid : successor.id = oldJob.id) (_hlog : successor.logId ≠ oldJob.logId) :
    getJob (addJob (stopJob st oldJob) successor) successor.id = some successor ∧
    getJob (watch (addJob (stopJob st oldJob) successor) oldJob result nowMs).1
      successor.id = none ∧
    successor ∉
      (watch (addJob (stopJob st oldJob) successor) oldJob result nowMs).1.jobs := by
  refine ⟨?_, ?_, ?_⟩
  · show (successor ::
        (stopJob st oldJob).jobs.filter (fun x => !(x.id == successor.id))).find?
      (fun x => x.id == successor.id) = some successor
    rw [List.find?_cons_of_pos]
    simp
  · show (((addJob (stopJob st oldJob) successor).jobs).filter
        (fun x => !(x.id == oldJob.id))).find? (fun x => x.id == successor.id) = none
    rw [hid]
    exact find?_filter_self_none _ oldJob.id
  · intro hmem
    have h2 := (List.mem_filter.mp hmem).2
    rw [hid] at h2
    simp at h2

/-- C1: in every trace of `runJob`'s execution task, the insert event occurs
only immediately after a table poll that returned no incumbent for the job's
id, the handler run follows the insert, and every earlier poll returned an
incumbent — so the task never begins running while an incumbent occupies the
table entry it polled. -/
theorem runJob_insert_after_empty_poll (obs : List (Option Job)) (k : Nat)
    (hk : (runJobTrace obs).get? k = some RunJobEvent.insert) :
    1 ≤ k ∧
    (runJobTrace obs).get? (k - 1) = some (RunJobEvent.poll none) ∧
    (runJobTrace obs).get? (k + 1) = some RunJobEvent.run ∧
    ∀ i, i < k - 1 →
      ∃ j, (runJobTrace obs).get? i = some (RunJobEvent.poll (some j)) := by
  induction obs generalizing k with
  | nil => simp [runJobTrace] at hk
  | cons o rest ih =>
      cases o with
      | none =>
          have hk1 : k = 1 := by
            match k with
            | 0 => simp [runJobTrace] at hk
            | 1 => rfl
            | 2 => simp [runJobTrace] at hk
            | (n+3) => simp [runJobTrace] at hk
          subst hk1
          refine ⟨le_refl 1, rfl, rfl, ?_⟩
          intro i hi
          exact absurd hi (Nat.not_lt_zero i)
      | some j =>
          match k, hk with
          | 0, hk => simp [runJobTrace] at hk
          | (n+1), hk =>
              have hk2 : (runJobTrace rest).get? n = some RunJobEvent.insert := hk
              obtain ⟨h1, h2, h3, h4⟩ := ih n hk2
              obtain ⟨m, rfl⟩ : ∃ m, n = m + 1 := ⟨n - 1, by omega⟩
              refine ⟨by omega, h2, h3, ?_⟩
              intro i hi
              match i with
              | 0 => exact ⟨j, rfl⟩
              | (i+1) => exact h4 i (by omega)

/-- C9 counterexample: a Response whose content is the bare JSON null — the
image of a Go typed-nil content such as `json.RawMessage("null")`, which
`omitempty` does not omit — serializes to `"content":null`, and parsing that
back stores the nil interface, so the round trip does not return the original
content. -/
theorem response_round_trip_fails_on_null_content :
    Response.fromJson
        (Response.toJson { code := 200, msg := "", content := some Json.null }) ≠
      some { code := 200, msg := "", content := some Json.null } := by
  intro h
  have hv : Response.fromJson
      (Response.toJson { code := 200, msg := "", content := some Json.null }) =
      some { code := 200, msg := "", content := none } := rfl
  rw [hv] at h
  have h2 := congrArg Response.content (Option.some.inj h)
  exact Option.noConfusion h2

/-- C9 (amended): for every Response whose content is not the bare JSON null,
serializing with `Response.String` and parsing back with `json.Unmarshal`
returns a Response with the same code, msg and content. -/
theorem response_round_trip (r : Response) (h : r.content ≠ some Json.null) :
    Response.fromJson (Response.toJson r) = some r := by
  obtain ⟨code, msg, content⟩ := r
  cases content with
  | none => rfl
  | some c =>
      have hc : c ≠ Json.null := by
        intro hcn
        rw [hcn] at h
        exact h rfl
      cases c with
      | null => exact absurd rfl hc
      | bool b => rfl
      | num n => rfl
      | str s => rfl
      | arr xs => rfl
      | obj fs => rfl

/-! ## Witnesses: the theorems above applied at concrete inputs -/

/-- C1 witness: with one busy poll followed by an empty poll, the insert event
sits at index 2, right after the empty poll and right before the run event. -/
theorem runJob_insert_after_empty_poll_witness :
    (runJobTrace [some sampleJob, none]).get? 2 = some RunJobEvent.insert ∧
    (runJobTrace [some sampleJob, none]).get? 1 = some (RunJobEvent.poll none) ∧
    (runJobTrace [some sampleJob, none]).get? 3 = some RunJobEvent.run := by
  obtain ⟨_, h2, h3, _⟩ := runJob_insert_after_empty_poll [some sampleJob, none] 2 rfl
  exact ⟨rfl, h2, h3⟩

/-- C2 witness: re-delivering logId 7 for job 1 while `sampleJob` (logId 7) is
running fails with "duplicate log id" and leaves the state untouched. -/
theorem trigger_duplicate_logId_witness :
    getJob sampleState (mkRunParam "DISCARD_LATER" 7).jobId = some sampleJob ∧
    TriggerJob sampleState (mkRunParam "DISCARD_LATER" 7) =
      (sampleState, Except.error "duplicate log id") :=
  ⟨rfl, trigger_duplicate_logId sampleState (mkRunParam "DISCARD_LATER" 7)
    sampleJob rfl rfl⟩

/-- C3 witness: triggering job 1 with logId 8 under `DISCARD_LATER` while
`sampleJob` is running fails with the busy error and changes nothing. -/
theorem trigger_discard_later_witness :
    getJob sampleState (mkRunParam "DISCARD_LATER" 8).jobId = some sampleJob ∧
    TriggerJob sampleState (mkRunParam "DISCARD_LATER" 8) =
      (sampleState, Except.error "a job of same id is already running") :=
  ⟨rfl, trigger_discard_later sampleState (mkRunParam "DISCARD_LATER" 8)
    sampleJob rfl (by decide) rfl⟩

/-- C4 witness: triggering job 1 with logId 8 under `COVER_EARLY` cancels the
incumbent `sampleJob`, empties the table entry, and succeeds. -/
theorem trigger_cover_early_witness :
    (TriggerJob sampleState (mkRunParam "COVER_EARLY" 8)).1.cancelled =
      sampleJob.logId :: sampleState.cancelled ∧
    getJob (TriggerJob sampleState (mkRunParam "COVER_EARLY" 8)).1
      (mkRunParam "COVER_EARLY" 8).jobId = none ∧
    ∃ nj, (TriggerJob sampleState (mkRunParam "COVER_EARLY" 8)).2 = Except.ok nj := by
  obtain ⟨nj, h1, h2, h3, _⟩ :=
    trigger_cover_early sampleState (mkRunParam "COVER_EARLY" 8) sampleJob 0
      rfl (by decide) rfl rfl
  exact ⟨h2, h3, nj, h1⟩

/-- C5 witness: on an empty table under `SERIAL_EXECUTION`, the trigger for the
registered handler "echo" succeeds immediately: the new Job is scheduled, not
in the table, and the callback queue stays empty. -/
theorem trigger_admitted_witness :
    ∃ nj, (TriggerJob emptyState (mkRunParam "SERIAL_EXECUTION" 9)).2 = Except.ok nj ∧
      nj.id = 1 ∧ nj.logId = 9 ∧
      (TriggerJob emptyState (mkRunParam "SERIAL_EXECUTION" 9)).1.scheduled =
        nj :: emptyState.scheduled ∧
      (TriggerJob emptyState (mkRunParam "SERIAL_EXECUTION" 9)).1.callbackChan =
        emptyState.callbackChan := by
  have h := trigger_admitted emptyState (mkRunParam "SERIAL_EXECUTION" 9)
    (fun j hj => Option.noConfusion (show (none : Option Job) = some j from hj))
    (fun _ => rfl)
  obtain ⟨nj, h1, h2, h3, _, _, h6, h7, _⟩ := h.2 0 rfl
  exact ⟨nj, h1, h2, h3, h6, h7⟩

/-- C6 witness: the watcher of `sampleJob`, fed a nil error, emits one
CallbackParam with logId 7 and code 200 and clears the table entry for id 1. -/
theorem watch_exactly_one_callback_witness :
    (watch sampleState sampleJob none 0).2.logId = sampleJob.logId ∧
    (watch sampleState sampleJob none 0).2.handleCode = 200 ∧
    getJob (watch sampleState sampleJob none 0).1 sampleJob.id = none := by
  obtain ⟨h1, _, h3, _, h5, _, _⟩ :=
    watch_exactly_one_callback sampleState sampleJob none 0
  exact ⟨h1, (h3 rfl).1, h5⟩

/-- C7 witness: killing job 1 while `sampleJob` runs answers code 200, cancels
it and empties its table entry; the same endpoint on an empty table is a
no-op that still answers code 200. -/
theorem kill_always_succeeds_witness :
    (kill sampleState { jobId := 1 }).2.code = 200 ∧
    (kill sampleState { jobId := 1 }).1.cancelled = sampleJob.logId :: sampleState.cancelled ∧
    getJob (kill sampleState { jobId := 1 }).1 1 = none ∧
    (kill emptyState { jobId := 1 }).1 = emptyState := by
  obtain ⟨_, h2, _, h4⟩ := kill_always_succeeds sampleState { jobId := 1 }
  obtain ⟨ha, hb, _⟩ := h4 sampleJob rfl
  obtain ⟨_, _, hc, _⟩ := kill_always_succeeds emptyState { jobId := 1 }
  exact ⟨h2, ha, hb, hc rfl⟩

/-- C8 witness: after `sampleJob` is force-terminated and `successorJob` (same
id 1, logId 8) is inserted, the stale watcher of `sampleJob` evicts
`successorJob` from the table. -/
theorem stale_watcher_evicts_successor_witness :
    getJob (addJob (stopJob sampleState sampleJob) successorJob) successorJob.id =
      some successorJob ∧
    getJob (watch (addJob (stopJob sampleState sampleJob) successorJob)
      sampleJob none 0).1 successorJob.id = none := by
  obtain ⟨h1, h2, _⟩ :=
    stale_watcher_evicts_successor sampleState sampleJob successorJob none 0
      rfl (by decide)
  exact ⟨h1, h2⟩

/-- C9 witness: a Response with numeric content 5 round trips to itself. -/
theorem response_round_trip_witness :
    Response.fromJson
        (Response.toJson { code := 200, msg := "ok", content := some (Json.num 5) }) =
      some { code := 200, msg := "ok", content := some (Json.num 5) } :=
  response_round_trip { code := 200, msg := "ok", content := some (Json.num 5) }
    (fun h => Json.noConfusion (Option.some.inj h))

/-- C10 witness: triggering job 1 with logId 8 under `COVER_EARLY` when no
handler named "echo" is registered fails with "job handler not found", yet the
incumbent `sampleJob` has been cancelled and removed. -/
theorem trigger_cover_early_not_atomic_witness :
    TriggerJob noHandlerState (mkRunParam "COVER_EARLY" 8) =
      (stopJob noHandlerState sampleJob, Except.error "job handler not found") ∧
    (TriggerJob noHandlerState (mkRunParam "COVER_EARLY" 8)).1.cancelled =
      sampleJob.logId :: noHandlerState.cancelled := by
  obtain ⟨h1, h2, _, _⟩ :=
    trigger_cover_early_not_atomic noHandlerState (mkRunParam "COVER_EARLY" 8)
      sampleJob rfl (by decide) rfl rfl
  exact ⟨h1, h2⟩
